import Mathlib

set_option autoImplicit false

/-!
Verification of the permission snapshot and change-detection pipeline of the
SimplyInspect repository.

The definitions below are a shallow embedding of the Python source:
* `comparePermissions` embeds `BaselineService._compare_permissions`
  (src/services/baseline_service.py); Python dictionaries built by
  comprehension are embedded as association lists where a later binding for
  the same key overwrites the earlier one.
* `changeTypeForModified` embeds the `change_type` computation of
  `ChangeDetectionService._record_changes` (src/services/change_detection_service.py).
* `markChangesReviewed` embeds `ChangeDetectionService.mark_changes_reviewed`.
* `markNotificationFailed` / `selectPendingNotifications` embed the retry
  state machine of `NotificationService` (src/services/notification_service.py).
* `classifyUserGrantee` embeds the principal-classification heuristic of
  `process_single_resource` (src/routes/sharepoint_routes.py).
* `collectDriveWrites` / `applyStructWrites` embed the structure-discovery
  upserts of `collect_drive_items_fast`, and `processPermissionReplace`
  embeds the delete/upsert/update sequence of `process_single_resource`.
* `activateBaseline` / `createBaseline` embed `BaselineService` together with
  the database trigger enforcing active-baseline exclusivity (the trigger
  lives in a SQL migration that only `init_database.py` references).
-/

namespace SimplyInspect

/-- A permission record, with the fields `_compare_permissions` inspects
(the remaining columns selected by the baseline queries play no role in the
comparison and are omitted from the key-relevant record). -/
structure Perm where
  resource_id : String
  resource_name : String
  principal_id : String
  principal_name : String
  permission_level : String
  has_broken_inheritance : Bool
  deriving DecidableEq, Repr

/-- Embedding of make_key: the string `resource_id ++ "|" ++ principal_id`. -/
def mkKey (p : Perm) : String :=
  p.resource_id ++ "|" ++ p.principal_id

/-- Lookup in an association list (first binding wins, as in a Python dict
whose insert replaces in place). -/
def dlookup : List (String × Perm) → String → Option Perm
  | [], _ => none
  | kv :: m, k => if kv.1 = k then some kv.2 else dlookup m k

/-- Insert into an association list, overwriting an existing binding for the
same key (Python dict assignment). -/
def dinsert : List (String × Perm) → String → Perm → List (String × Perm)
  | [], k, v => [(k, v)]
  | kv :: m, k, v => if kv.1 = k then (k, v) :: m else kv :: dinsert m k v

/-- Build the Python dict keyed by `mkKey`: fold the list into a dict,
later entries overwriting earlier ones. -/
def buildDict (ps : List Perm) : List (String × Perm) :=
  ps.foldl (fun m p => dinsert m (mkKey p) p) []

/-- The key list of a dict. -/
def dkeys (m : List (String × Perm)) : List String :=
  m.map Prod.fst

/-- Key membership test (`k in dict`). -/
def dmem (m : List (String × Perm)) (k : String) : Bool :=
  (dlookup m k).isSome

/-- The record a Python dict comprehension associates to key `k`: the last
element of the list whose key is `k`. -/
def lastWith (ps : List Perm) (k : String) : Option Perm :=
  ps.reverse.find? (fun p => decide (mkKey p = k))

/-- The modified-entry record built by `_compare_permissions` for a common
key whose permission level or inheritance flag changed. -/
structure ModifiedPerm where
  resource_id : String
  resource_name : String
  principal_id : String
  principal_name : String
  old_permission_level : String
  new_permission_level : String
  old_inheritance : Bool
  new_inheritance : Bool
  deriving DecidableEq, Repr

/-- The `summary` object returned by `_compare_permissions`. -/
structure CompareSummary where
  total_baseline : Nat
  total_current : Nat
  added_count : Nat
  removed_count : Nat
  modified_count : Nat
  unchanged_count : Nat
  deriving DecidableEq, Repr

/-- The full return value of `_compare_permissions`. -/
structure CompareResult where
  summary : CompareSummary
  added_permissions : List Perm
  removed_permissions : List Perm
  modified_permissions : List ModifiedPerm
  deriving DecidableEq, Repr

/-- The modification test of `_compare_permissions`: permission level or
inheritance flag differs. -/
def isModifiedPair (b c : Perm) : Bool :=
  (b.permission_level != c.permission_level) ||
    (b.has_broken_inheritance != c.has_broken_inheritance)

/-- The modified-entry record (`old_*` from the baseline record, `new_*`
and the descriptive fields from the current record). -/
def mkModified (b c : Perm) : ModifiedPerm :=
  { resource_id := c.resource_id
    resource_name := c.resource_name
    principal_id := c.principal_id
    principal_name := c.principal_name
    old_permission_level := b.permission_level
    new_permission_level := c.permission_level
    old_inheritance := b.has_broken_inheritance
    new_inheritance := c.has_broken_inheritance }

/-- Shallow embedding of `BaselineService._compare_permissions`.  Key sets
are represented as the (duplicate-free) key lists of the two dicts;
iteration order over Python sets is unspecified, so only the partition of
keys (not the order of the three output lists) is meaningful. -/
def comparePermissions (baseline_perms current_perms : List Perm) : CompareResult :=
  let baseline_dict := buildDict baseline_perms
  let current_dict := buildDict current_perms
  let added_keys := (dkeys current_dict).filter (fun k => !dmem baseline_dict k)
  let removed_keys := (dkeys baseline_dict).filter (fun k => !dmem current_dict k)
  let common_keys := (dkeys baseline_dict).filter (fun k => dmem current_dict k)
  let added := added_keys.filterMap (fun k => dlookup current_dict k)
  let removed := removed_keys.filterMap (fun k => dlookup baseline_dict k)
  let modified := common_keys.filterMap (fun k =>
    match dlookup baseline_dict k, dlookup current_dict k with
    | some b, some c => if isModifiedPair b c then some (mkModified b c) else none
    | _, _ => none)
  { summary :=
      { total_baseline := baseline_perms.length
        total_current := current_perms.length
        added_count := added.length
        removed_count := removed.length
        modified_count := modified.length
        unchanged_count := common_keys.length - modified.length }
    added_permissions := added
    removed_permissions := removed
    modified_permissions := modified }

/-- The record for common key `k` is modified: the baseline and current
dict entries at `k` (last occurrences in each list) differ in permission
level or inheritance flag. -/
def modifiedAtKey (B C : List Perm) (k : String) : Bool :=
  match lastWith B k, lastWith C k with
  | some b, some c => isModifiedPair b c
  | _, _ => false

/-! ## Change ledger (`change_detection_service.py`) -/

/-- The `change_type` computed by `_record_changes` for one modified entry:
it starts as `modified` and is overridden to `inheritance_broken` or
`inheritance_restored` whenever `old_inheritance != new_inheritance`. -/
def changeTypeForModified (mod : ModifiedPerm) : String :=
  if mod.old_inheritance != mod.new_inheritance then
    if mod.new_inheritance then "inheritance_broken" else "inheritance_restored"
  else "modified"

/-- A row of the `permission_changes` table, with the fields touched by
`mark_changes_reviewed`. -/
structure ChangeRow where
  id : Nat
  change_type : String
  reviewed : Bool
  reviewed_by : Option String
  review_notes : Option String
  deriving DecidableEq, Repr

/-- Shallow embedding of `ChangeDetectionService.mark_changes_reviewed`.
The SQL `UPDATE` sets `reviewed`, `reviewed_by` and `review_notes` on rows
whose id is listed and which satisfy `reviewed = false`; the function then
returns `len(change_ids)` (the source comments this with
`Assume all were updated`). -/
def markChangesReviewed (tbl : List ChangeRow) (change_ids : List Nat)
    (reviewed_by : String) (review_notes : Option String) :
    List ChangeRow × Nat :=
  if change_ids = [] then (tbl, 0)
  else
    (tbl.map fun r =>
      if r.id ∈ change_ids ∧ r.reviewed = false then
        { r with reviewed := true
                 reviewed_by := some reviewed_by
                 review_notes := review_notes }
      else r,
     change_ids.length)

/-! ## Notification dispatcher (`notification_service.py`) -/

/-- A row of the `notification_queue` table, with the fields touched by the
dispatch tick and the failure handler. -/
structure NotificationJob where
  id : Nat
  recipient_email : String
  status : String
  retry_count : Nat
  max_retries : Nat
  scheduled_for : Int
  priority : Int
  created_at : Int
  error_message : Option String
  deriving DecidableEq, Repr

/-- Shallow embedding of `_mark_notification_failed`: every `CASE` in the
SQL `UPDATE` is evaluated against the pre-update row, so the status becomes
`failed` exactly when the job had already accumulated at least
`max_retries` recorded failures before this one. -/
def markNotificationFailed (j : NotificationJob) (err : String) (now : Int) :
    NotificationJob :=
  { j with
    status := if j.max_retries ≤ j.retry_count then "failed" else "pending"
    retry_count := j.retry_count + 1
    error_message := some err
    scheduled_for :=
      if j.retry_count < j.max_retries then now + 5 * 60 else j.scheduled_for }

/-- A sequence of delivery failures, each with an error message and the
wall-clock time at which it was recorded. -/
def failSeq (j : NotificationJob) (errs : List (String × Int)) : NotificationJob :=
  errs.foldl (fun j e => markNotificationFailed j e.1 e.2) j

/-- Embedding of the sort key `ORDER BY priority ASC, created_at ASC`. -/
def jobOrder (a b : NotificationJob) : Bool :=
  decide (a.priority < b.priority ∨
    (a.priority = b.priority ∧ a.created_at ≤ b.created_at))

/-- Insert into a sorted list (insertion step of the ORDER BY sort). -/
def insertByLe (le : NotificationJob → NotificationJob → Bool)
    (x : NotificationJob) : List NotificationJob → List NotificationJob
  | [] => [x]
  | y :: ys => if le x y then x :: y :: ys else y :: insertByLe le x ys

/-- Sort by the given order (the sort done by the SQL engine, rendered
as insertion sort). -/
def sortByLe (le : NotificationJob → NotificationJob → Bool) :
    List NotificationJob → List NotificationJob
  | [] => []
  | x :: xs => insertByLe le x (sortByLe le xs)

/-- Shallow embedding of the queue query of `send_pending_notifications`:
status = pending AND scheduled_for <= now, ORDER BY priority ASC then
created_at ASC, LIMIT max_notifications. -/
def selectPendingNotifications (queue : List NotificationJob) (now : Int)
    (max_notifications : Nat) : List NotificationJob :=
  (sortByLe jobOrder
    (queue.filter fun j =>
      decide (j.status = "pending" ∧ j.scheduled_for ≤ now))).take
    max_notifications

/-! ## Principal classifier (`process_single_resource`, sharepoint_routes.py) -/

/-- Value of a base64 alphabet character. -/
def b64CharVal (c : Char) : Option Nat :=
  if 65 ≤ c.toNat ∧ c.toNat ≤ 90 then some (c.toNat - 65)
  else if 97 ≤ c.toNat ∧ c.toNat ≤ 122 then some (c.toNat - 97 + 26)
  else if 48 ≤ c.toNat ∧ c.toNat ≤ 57 then some (c.toNat - 48 + 52)
  else if c = '+' then some 62
  else if c = '/' then some 63
  else none

/-- Decode a list of 6-bit values into bytes (full quads give three bytes,
a leftover of two or three data characters gives one or two bytes). -/
def b64Groups : List Nat → List Nat
  | a :: b :: c :: d :: rest =>
      (a * 4 + b / 16) :: ((b % 16) * 16 + c / 4) :: ((c % 4) * 64 + d) :: b64Groups rest
  | [a, b] => [a * 4 + b / 16]
  | [a, b, c] => [a * 4 + b / 16, (b % 16) * 16 + c / 4]
  | _ => []

/-- Shallow embedding of `base64.b64decode` applied to the principal id
with `"==="` appended, at the
byte level: the data characters before the first padding character are
decoded in quads, and a leftover of a single data character is a padding
error (`none`).  The lenient CPython decoder silently skips characters
outside the base64 alphabet where this embedding rejects them; the two
agree on every input whose prefix before the first `=` stays inside the
alphabet.  -/
def b64DecodePadded (s : String) : Option (List Nat) :=
  let data := (s ++ "===").data.takeWhile (fun c => c != '=')
  match data.mapM b64CharVal with
  | none => none
  | some vals => if vals.length % 4 = 1 then none else some (b64Groups vals)

/-- UTF-8 encoding of one character. -/
def charUtf8 (c : Char) : List Nat :=
  let n := c.toNat
  if n < 128 then [n]
  else if n < 2048 then [192 + n / 64, 128 + n % 64]
  else if n < 65536 then [224 + n / 4096, 128 + n / 64 % 64, 128 + n % 64]
  else [240 + n / 262144, 128 + n / 4096 % 64, 128 + n / 64 % 64, 128 + n % 64]

/-- UTF-8 encoding of a string (Python `str.encode()`); comparing decoded
bytes against these bytes is equivalent to the Python comparison of the
UTF-8-decoded bytes against the name, since UTF-8 encoding is injective
and a successful Python decode of exactly these bytes yields the name. -/
def utf8Bytes (s : String) : List Nat :=
  s.data.flatMap charUtf8

/-- `needle in haystack` on strings (Python substring containment). -/
def strContainsSub (s pat : String) : Bool :=
  s.data.tails.any (fun t => pat.data.isPrefixOf t)

/-- The group_keywords list: Members, Owners, Visitors, Contributors, Group. -/
def groupKeywords : List String :=
  ["Members", "Owners", "Visitors", "Contributors", "Group"]

/-- Embedding of the test `not principal_email or "@" not in str(principal_email)`. -/
def emailUnusable : Option String → Bool
  | none => true
  | some e => e == "" || !(e.data.any (fun c => c == '@'))

/-- Shallow embedding of the reclassification applied to a grantee
nominally typed `user` in `process_single_resource`: first the base64
check (guarded by `len(principal_id) > 10`; a successful decode must be
non-empty and equal to the display name), then the group-keyword check
(any keyword in the display name, and no usable email address).  Either
check turns `("user", is_human := true)` into `("group", is_human := false)`. -/
def classifyUserGrantee (principal_id principal_name : String)
    (principal_email : Option String) : String × Bool :=
  let step1 : String × Bool :=
    if principal_id.length > 10 then
      match b64DecodePadded principal_id with
      | some bytes =>
          if bytes ≠ [] ∧ bytes = utf8Bytes principal_name then ("group", false)
          else ("user", true)
      | none => ("user", true)
    else ("user", true)
  if (groupKeywords.any fun kw => strContainsSub principal_name kw) &&
      emailUnusable principal_email then ("group", false)
  else step1

/-! ## Snapshot store rows and upserts (sharepoint_routes.py) -/

/-- A row of the `sharepoint_permissions` table. -/
structure SPRow where
  tenant_id : String
  resource_type : String
  resource_id : String
  resource_name : String
  resource_url : String
  parent_resource_id : Option String
  collected_at : Int
  site_id : String
  site_url : String
  has_broken_inheritance : Bool
  permission_type : String
  principal_type : String
  principal_id : String
  principal_name : String
  principal_email : Option String
  is_human : Bool
  permission_level : String
  deriving DecidableEq, Repr

/-- The conflict key `(resource_id, principal_id)`. -/
def rowKey (r : SPRow) : String × String :=
  (r.resource_id, r.principal_id)

/-- Embedding of `INSERT ... ON CONFLICT (resource_id, principal_id) DO
UPDATE SET ...`: if a row with the key exists it is merged in place,
otherwise the new row is appended. -/
def upsertWith (merge : SPRow → SPRow → SPRow) (tbl : List SPRow)
    (new : SPRow) : List SPRow :=
  if tbl.any (fun r => decide (rowKey r = rowKey new)) then
    tbl.map (fun r => if rowKey r = rowKey new then merge r new else r)
  else tbl ++ [new]

/-- Conflict action of the structure-discovery upsert
(`collect_drive_items_fast`): refresh name, url, parent and timestamp. -/
def structMerge (old new : SPRow) : SPRow :=
  { old with
    resource_name := new.resource_name
    resource_url := new.resource_url
    parent_resource_id := new.parent_resource_id
    collected_at := new.collected_at }

/-- Conflict action of the permission upsert (`process_single_resource`):
refresh level, timestamp and inheritance flag. -/
def permMerge (old new : SPRow) : SPRow :=
  { old with
    permission_level := new.permission_level
    collected_at := new.collected_at
    has_broken_inheritance := new.has_broken_inheritance }

/-- An item returned by the drive-children endpoint. -/
structure DriveItem where
  id : String
  name : String
  webUrl : String
  isFolder : Bool
  deriving DecidableEq, Repr

/-- The structure row upserted for one discovered item: sentinel principal
`"<resource_type>_<id>"`, `permission_type = structure`, and a parent of
`NULL` for items under the drive root. -/
def structRow (tenant_id site_id site_url : String) (collected_at : Int)
    (folder_id : String) (item : DriveItem) : SPRow :=
  { tenant_id := tenant_id
    resource_type := if item.isFolder then "folder" else "file"
    resource_id := item.id
    resource_name := item.name
    resource_url := item.webUrl
    parent_resource_id := if folder_id = "root" then none else some folder_id
    collected_at := collected_at
    site_id := site_id
    site_url := site_url
    has_broken_inheritance := false
    permission_type := "structure"
    principal_type := "resource"
    principal_id := (if item.isFolder then "folder" else "file") ++ "_" ++ item.id
    principal_name := item.name
    principal_email := none
    is_human := false
    permission_level := "N/A" }

/-- The upsert sequence issued by the recursive `process_folder` of
`collect_drive_items_fast`, with the upstream abstracted as a map from folder id to
its (pagination-flattened) children.  The `depth > 10` entry guard means
depths `0..10` are processed; the fuel argument is `11 - depth`.  Batched
concurrent recursion only interleaves writes of disjoint subtrees, so the
sequential order here fixes one admissible serialization; the row *set*
is what the idempotence claim is about. -/
def collectDriveWritesGo (children : String → List DriveItem)
    (tenant_id site_id site_url : String) (collected_at : Int) :
    Nat → String → List SPRow
  | 0, _ => []
  | fuel + 1, folder_id =>
      (children folder_id).map
        (structRow tenant_id site_id site_url collected_at folder_id) ++
      ((children folder_id).filter (fun it => it.isFolder)).flatMap
        (fun it =>
          collectDriveWritesGo children tenant_id site_id site_url collected_at fuel it.id)

/-- All structure upserts of one run, starting from the drive root. -/
def collectDriveWrites (children : String → List DriveItem)
    (tenant_id site_id site_url : String) (collected_at : Int) : List SPRow :=
  collectDriveWritesGo children tenant_id site_id site_url collected_at 11 "root"

/-- Apply a list of structure upserts to the table. -/
def applyStructWrites (tbl : List SPRow) (ws : List SPRow) : List SPRow :=
  ws.foldl (upsertWith structMerge) tbl

/-- One structure-discovery pass over an unchanged upstream `children`,
collected at time `t`. -/
def runStructureDiscovery (children : String → List DriveItem)
    (tenant_id site_id site_url : String) (t : Int) (tbl : List SPRow) :
    List SPRow :=
  applyStructWrites tbl (collectDriveWrites children tenant_id site_id site_url t)

/-! ## Permission replacement for one resource (`process_single_resource`) -/

/-- The parsed grant data that feeds one permission upsert. -/
structure GrantInfo where
  principal_type : String
  principal_id : String
  principal_name : String
  principal_email : Option String
  is_human : Bool
  permission_level : String
  permission_type : String
  deriving DecidableEq, Repr

/-- The sentinel principal id `f"{resource_type}_{resource_id}"`. -/
def sentinelId (resource_type resource_id : String) : String :=
  resource_type ++ "_" ++ resource_id

/-- Embedding of `DELETE FROM sharepoint_permissions WHERE resource_id =
$1 AND principal_id != $2`: keep exactly the rows not matched. -/
def deleteNonSentinelRows (tbl : List SPRow) (resource_id sentinel : String) :
    List SPRow :=
  tbl.filter (fun r => !decide (r.resource_id = resource_id ∧ r.principal_id ≠ sentinel))

/-- Embedding of `UPDATE sharepoint_permissions SET has_broken_inheritance
= $1 WHERE resource_id = $2 AND principal_id = $3`. -/
def updateSentinelInheritance (tbl : List SPRow) (resource_id sentinel : String)
    (has_unique_perms : Bool) : List SPRow :=
  tbl.map fun r =>
    if r.resource_id = resource_id ∧ r.principal_id = sentinel then
      { r with has_broken_inheritance := has_unique_perms }
    else r

/-- The row upserted for one parsed grant: identity and descriptive fields
from the resource, grant fields from the parsed permission, and the
resource-level `has_unique_perms` as the inheritance flag. -/
def grantRow (resource_info : SPRow) (resource_id : String) (collected_at : Int)
    (has_unique_perms : Bool) (g : GrantInfo) : SPRow :=
  { tenant_id := resource_info.tenant_id
    resource_type := resource_info.resource_type
    resource_id := resource_id
    resource_name := resource_info.resource_name
    resource_url := resource_info.resource_url
    parent_resource_id := resource_info.parent_resource_id
    collected_at := collected_at
    site_id := resource_info.site_id
    site_url := resource_info.site_url
    has_broken_inheritance := has_unique_perms
    permission_type := g.permission_type
    principal_type := g.principal_type
    principal_id := g.principal_id
    principal_name := g.principal_name
    principal_email := g.principal_email
    is_human := g.is_human
    permission_level := g.permission_level }

/-- The database effect of `process_single_resource` on a 200 response:
delete the non-sentinel rows of the resource, upsert one row per parsed
grant, then update the inheritance flag of the sentinel row. -/
def processPermissionReplace (tbl : List SPRow) (resource_id resource_type : String)
    (resource_info : SPRow) (grants : List GrantInfo) (collected_at : Int)
    (has_unique_perms : Bool) : List SPRow :=
  let sentinel := sentinelId resource_type resource_id
  let t1 := deleteNonSentinelRows tbl resource_id sentinel
  let t2 := (grants.map (grantRow resource_info resource_id collected_at has_unique_perms)).foldl
    (upsertWith permMerge) t1
  updateSentinelInheritance t2 resource_id sentinel has_unique_perms

/-! ## Permission-pass control flow (`collect_sharepoint_permissions`) -/

/-- Per-resource statistics record with fields processed, unique, error. -/
structure ResourceOutcome where
  processed : Nat
  unique : Nat
  error : Nat
  deriving DecidableEq, Repr

/-- Shallow embedding of the status handling in `process_single_resource`.
`drives_nonempty` stands for "site row found, drives list non-empty and
first drive has an id" (each failing case returns the same
one-error record).  A 429 on either endpoint
raises `"429 Rate Limited"`; on the permission endpoint 200 processes,
404 is no data (not an error), anything else is an error. -/
def processSingleResource (drives_status : Nat) (drives_nonempty : Bool)
    (perms_status : Nat) (has_unique_perms : Bool) :
    Except String ResourceOutcome :=
  if drives_status = 429 then .error "429 Rate Limited"
  else if drives_status ≠ 200 then .ok ⟨0, 0, 1⟩
  else if !drives_nonempty then .ok ⟨0, 0, 1⟩
  else if perms_status = 429 then .error "429 Rate Limited"
  else if perms_status = 200 then .ok ⟨1, if has_unique_perms then 1 else 0, 0⟩
  else if perms_status = 404 then .ok ⟨0, 0, 0⟩
  else .ok ⟨0, 0, 1⟩

/-- The permission-pass retry bound, `max_retries = 3`. -/
def maxRetriesPermPass : Nat := 3

/-- Embedding of the retryable-error test `"429" in str(e)`. -/
def containsSub429 (e : String) : Bool :=
  strContainsSub e "429"

/-- Shallow embedding of `process_resource_with_retry`: attempt the fetch,
and on an exception mentioning 429 while `attempt < max_retries - 1` sleep
`(2 ** attempt) * 5` seconds and try again.  `resp` gives the outcome of
each attempt; the second component records the back-off waits performed.
The fuel equals `max_retries - attempt`, so it never reaches zero. -/
def processResourceWithRetryGo (resp : Nat → Except String ResourceOutcome) :
    Nat → Nat → Except String ResourceOutcome × List Nat
  | 0, _ => (.error "out of fuel", [])
  | fuel + 1, attempt =>
      match resp attempt with
      | .ok o => (.ok o, [])
      | .error e =>
          if attempt < maxRetriesPermPass - 1 && containsSub429 e then
            let r := processResourceWithRetryGo resp fuel (attempt + 1)
            (r.1, 2 ^ attempt * 5 :: r.2)
          else (.error e, [])

/-- Run `process_resource_with_retry` from attempt 0. -/
def processResourceWithRetry (resp : Nat → Except String ResourceOutcome) :
    Except String ResourceOutcome × List Nat :=
  processResourceWithRetryGo resp maxRetriesPermPass 0

/-- The statistics loop of the permission pass: an exception counts one
error, a returned record is added componentwise; processing always
continues with the remaining results. -/
def addOutcome (acc : ResourceOutcome) : Except String ResourceOutcome → ResourceOutcome
  | .ok o => ⟨acc.processed + o.processed, acc.unique + o.unique, acc.error + o.error⟩
  | .error _ => ⟨acc.processed, acc.unique, acc.error + 1⟩

/-- Fold the per-resource results into the pass statistics. -/
def collectStats (results : List (Except String ResourceOutcome)) : ResourceOutcome :=
  results.foldl addOutcome ⟨0, 0, 0⟩

/-! ## Baseline manager (`baseline_service.py`) -/

/-- A row of the `permission_baselines` table, with the fields relevant to
activation. -/
structure BaselineRow where
  id : Nat
  site_id : String
  site_url : String
  baseline_name : String
  is_active : Bool
  deriving DecidableEq, Repr

/-- Modelled from the spec: the `permission_baselines` trigger that
`activate_baseline` relies on ("The trigger will handle deactivating other
baselines") is defined in migration `004_permission_baselines.sql`, which
is referenced by `init_database.py` but absent from the source tree.  Per
the spec (§3, §4.4) it atomically deactivates every other baseline of the
same site when a baseline row becomes active. -/
def applyExclusivityTrigger (tbl : List BaselineRow) (activeId : Nat)
    (site : String) : List BaselineRow :=
  tbl.map fun b =>
    if b.site_id = site ∧ b.id ≠ activeId then { b with is_active := false }
    else b

/-- Embedding of `UPDATE permission_baselines SET is_active = true WHERE
id = $1` followed by the exclusivity trigger; `none` models the
not-found error. -/
def activateBaseline (tbl : List BaselineRow) (baseline_id : Nat) :
    Option (List BaselineRow) :=
  match tbl.find? (fun b => decide (b.id = baseline_id)) with
  | none => none
  | some target =>
      some (applyExclusivityTrigger
        (tbl.map fun b =>
          if b.id = baseline_id then { b with is_active := true } else b)
        baseline_id target.site_id)

/-- Embedding of `create_baseline`: insert the new row with `is_active :=
set_as_active`; when it is inserted active, the trigger enforces
exclusivity. -/
def createBaseline (tbl : List BaselineRow) (new : BaselineRow)
    (set_as_active : Bool) : List BaselineRow :=
  let inserted := tbl ++ [{ new with is_active := set_as_active }]
  if set_as_active then applyExclusivityTrigger inserted new.id new.site_id
  else inserted

/-! ## Lemmas about the dictionary embedding -/

theorem dlookup_dinsert (m : List (String × Perm)) (k k' : String) (v : Perm) :
    dlookup (dinsert m k v) k' = if k = k' then some v else dlookup m k' := by
  induction m with
  | nil => simp [dinsert, dlookup]
  | cons kv m ih =>
    by_cases h1 : kv.1 = k <;> by_cases h2 : k = k' <;>
      simp_all [dinsert, dlookup]

theorem dkeys_dinsert (m : List (String × Perm)) (k : String) (v : Perm) :
    dkeys (dinsert m k v) = if k ∈ dkeys m then dkeys m else dkeys m ++ [k] := by
  induction m with
  | nil => simp [dinsert, dkeys]
  | cons kv m ih =>
    by_cases h1 : kv.1 = k
    · simp [dinsert, dkeys, h1]
    · have hne : ¬(k = kv.1) := fun h => h1 h.symm
      simp only [dinsert, if_neg h1, dkeys, List.map_cons] at ih ⊢
      rw [ih]
      by_cases h2 : k ∈ List.map Prod.fst m <;>
        simp [List.mem_cons, hne, h2]

theorem dmem_iff_mem_dkeys (m : List (String × Perm)) (k : String) :
    dmem m k = true ↔ k ∈ dkeys m := by
  induction m with
  | nil => simp [dmem, dlookup, dkeys]
  | cons kv m ih =>
    by_cases h1 : kv.1 = k
    · simp [dmem, dlookup, dkeys, h1]
    · have hne : ¬(k = kv.1) := fun h => h1 h.symm
      simp only [dmem, dlookup, dkeys, List.map_cons, if_neg h1, List.mem_cons] at ih ⊢
      simp [hne, ih]

theorem dkeys_nodup_dinsert (m : List (String × Perm)) (k : String) (v : Perm)
    (h : (dkeys m).Nodup) : (dkeys (dinsert m k v)).Nodup := by
  rw [dkeys_dinsert]
  split_ifs with hmem
  · exact h
  · simp [List.nodup_append, h, hmem]

theorem mem_dkeys_dinsert (m : List (String × Perm)) (k : String) (v : Perm) (k' : String) :
    k' ∈ dkeys (dinsert m k v) ↔ k' ∈ dkeys m ∨ k' = k := by
  rw [dkeys_dinsert]
  split_ifs with hmem
  · constructor
    · exact Or.inl
    · rintro (h | rfl)
      · exact h
      · exact hmem
  · simp

theorem dlookup_buildGo (ps : List Perm) (m : List (String × Perm)) (k : String) :
    dlookup (ps.foldl (fun m p => dinsert m (mkKey p) p) m) k =
      match lastWith ps k with
      | some p => some p
      | none => dlookup m k := by
  induction ps generalizing m with
  | nil => simp [lastWith]
  | cons p ps ih =>
    rw [List.foldl_cons, ih]
    have hcons : lastWith (p :: ps) k =
        match lastWith ps k with
        | some q => some q
        | none => if mkKey p = k then some p else none := by
      simp only [lastWith, List.reverse_cons, List.find?_append]
      cases hf : ps.reverse.find? (fun q => decide (mkKey q = k)) <;>
        by_cases hk : mkKey p = k <;> simp [Option.or, List.find?, hk]
    rw [hcons]
    cases hf : lastWith ps k
    · by_cases hk : mkKey p = k <;> simp [dlookup_dinsert, hk]
    · simp [dlookup_dinsert]

theorem dlookup_buildDict (ps : List Perm) (k : String) :
    dlookup (buildDict ps) k = lastWith ps k := by
  rw [buildDict, dlookup_buildGo]
  cases lastWith ps k <;> simp [dlookup]

theorem dkeys_buildGo_nodup (ps : List Perm) (m : List (String × Perm))
    (h : (dkeys m).Nodup) :
    (dkeys (ps.foldl (fun m p => dinsert m (mkKey p) p) m)).Nodup := by
  induction ps generalizing m with
  | nil => exact h
  | cons p ps ih => exact ih _ (dkeys_nodup_dinsert _ _ _ h)

theorem dkeys_buildDict_nodup (ps : List Perm) : (dkeys (buildDict ps)).Nodup := by
  apply dkeys_buildGo_nodup
  simp [dkeys]

theorem mem_dkeys_buildGo (ps : List Perm) (m : List (String × Perm)) (k : String) :
    k ∈ dkeys (ps.foldl (fun m p => dinsert m (mkKey p) p) m) ↔
      k ∈ dkeys m ∨ k ∈ ps.map mkKey := by
  induction ps generalizing m with
  | nil => simp
  | cons p ps ih =>
    rw [List.foldl_cons, ih, mem_dkeys_dinsert]
    simp only [List.map_cons, List.mem_cons]
    tauto

theorem mem_dkeys_buildDict (ps : List Perm) (k : String) :
    k ∈ dkeys (buildDict ps) ↔ k ∈ ps.map mkKey := by
  rw [buildDict, mem_dkeys_buildGo]
  simp [dkeys]

theorem toFinset_dkeys_buildDict (ps : List Perm) :
    (dkeys (buildDict ps)).toFinset = (ps.map mkKey).toFinset := by
  apply Finset.ext
  intro k
  simp [mem_dkeys_buildDict]

theorem length_filterMap_isSome {α β : Type} (l : List α) (f : α → Option β)
    (h : ∀ a ∈ l, (f a).isSome) : (l.filterMap f).length = l.length := by
  induction l with
  | nil => simp
  | cons a l ih =>
    obtain ⟨b, hb⟩ := Option.isSome_iff_exists.mp (h a (List.mem_cons_self a l))
    rw [List.filterMap_cons, hb]
    simp only [List.length_cons]
    rw [ih fun a ha => h a (List.mem_cons_of_mem _ ha)]

theorem length_filterMap_eq_length_filter {α β : Type} (l : List α) (f : α → Option β)
    (p : α → Bool) (h : ∀ a ∈ l, (f a).isSome = p a) :
    (l.filterMap f).length = (l.filter p).length := by
  induction l with
  | nil => simp
  | cons a l ih =>
    have ha := h a (List.mem_cons_self a l)
    have ih2 := ih fun a ha => h a (List.mem_cons_of_mem _ ha)
    cases hp : p a
    · rw [hp] at ha
      have : f a = none := Option.not_isSome_iff_eq_none.mp (by simp [ha])
      simp [List.filterMap_cons, List.filter_cons, this, hp, ih2]
    · rw [hp] at ha
      obtain ⟨b, hb⟩ := Option.isSome_iff_exists.mp ha
      simp [List.filterMap_cons, List.filter_cons, hb, hp, ih2]

theorem toFinset_filter_dmem (X Y : List Perm) :
    ((dkeys (buildDict X)).filter (fun k => dmem (buildDict Y) k)).toFinset =
      (X.map mkKey).toFinset ∩ (Y.map mkKey).toFinset := by
  apply Finset.ext
  intro k
  simp [List.mem_filter, mem_dkeys_buildDict, dmem_iff_mem_dkeys]

theorem dmem_buildDict_eq (ps : List Perm) (k : String) :
    dmem (buildDict ps) k = decide (k ∈ ps.map mkKey) := by
  by_cases h : k ∈ ps.map mkKey
  · simp [h, (dmem_iff_mem_dkeys _ _).mpr ((mem_dkeys_buildDict ps k).mpr h)]
  · have h2 : dmem (buildDict ps) k = false := by
      apply Bool.eq_false_iff.mpr
      intro hc
      exact h ((mem_dkeys_buildDict ps k).mp ((dmem_iff_mem_dkeys _ _).mp hc))
    simp [h, h2]

theorem toFinset_filter_not_dmem (X Y : List Perm) :
    ((dkeys (buildDict X)).filter (fun k => !dmem (buildDict Y) k)).toFinset =
      (X.map mkKey).toFinset \ (Y.map mkKey).toFinset := by
  apply Finset.ext
  intro k
  simp [List.mem_filter, mem_dkeys_buildDict, dmem_buildDict_eq]

theorem length_filter_dmem (X Y : List Perm) :
    ((dkeys (buildDict X)).filter (fun k => dmem (buildDict Y) k)).length =
      ((X.map mkKey).toFinset ∩ (Y.map mkKey).toFinset).card := by
  rw [← toFinset_filter_dmem,
    List.toFinset_card_of_nodup (List.Nodup.filter _ (dkeys_buildDict_nodup X))]

theorem length_filter_not_dmem (X Y : List Perm) :
    ((dkeys (buildDict X)).filter (fun k => !dmem (buildDict Y) k)).length =
      ((X.map mkKey).toFinset \ (Y.map mkKey).toFinset).card := by
  rw [← toFinset_filter_not_dmem,
    List.toFinset_card_of_nodup (List.Nodup.filter _ (dkeys_buildDict_nodup X))]

/-- C1: for every snapshot `S`, comparing `S` with itself via
`_compare_permissions` yields a summary with `added_count = 0`,
`removed_count = 0` and `modified_count = 0`. -/
theorem diff_identity (S : List Perm) :
    (comparePermissions S S).summary.added_count = 0 ∧
    (comparePermissions S S).summary.removed_count = 0 ∧
    (comparePermissions S S).summary.modified_count = 0 := by
  have h1 : (dkeys (buildDict S)).filter (fun k => !dmem (buildDict S) k) = [] := by
    apply List.filter_eq_nil_iff.mpr
    intro k hk
    simp [(dmem_iff_mem_dkeys _ _).mpr hk]
  have h2 : ∀ k ∈ (dkeys (buildDict S)).filter (fun k => dmem (buildDict S) k),
      (match dlookup (buildDict S) k, dlookup (buildDict S) k with
        | some b, some c => if isModifiedPair b c then some (mkModified b c) else none
        | _, _ => none) = none := by
    intro k hk
    have hk2 : k ∈ dkeys (buildDict S) := List.mem_of_mem_filter hk
    have hs : (dlookup (buildDict S) k).isSome := by
      have := (dmem_iff_mem_dkeys (buildDict S) k).mpr hk2
      simpa [dmem] using this
    obtain ⟨b, hb⟩ := Option.isSome_iff_exists.mp hs
    rw [hb]
    simp [isModifiedPair]
  simp [comparePermissions, h1, List.filterMap_eq_nil_iff.mpr h2]

/-- C2: the summary of `_compare_permissions` partitions the key sets:
`added_count` is the number of keys in the current snapshot only,
`removed_count` the number of keys in the baseline only, a common key is
modified iff its permission level or inheritance flag differs, and
`unchanged_count` is the number of common keys minus `modified_count`. -/
theorem compare_summary_characterization (B C : List Perm) :
    (comparePermissions B C).summary.added_count
        = ((C.map mkKey).toFinset \ (B.map mkKey).toFinset).card ∧
    (comparePermissions B C).summary.removed_count
        = ((B.map mkKey).toFinset \ (C.map mkKey).toFinset).card ∧
    (comparePermissions B C).summary.modified_count
        = (((B.map mkKey).toFinset ∩ (C.map mkKey).toFinset).filter
            (fun k => modifiedAtKey B C k = true)).card ∧
    (comparePermissions B C).summary.unchanged_count
        = ((B.map mkKey).toFinset ∩ (C.map mkKey).toFinset).card
            - (comparePermissions B C).summary.modified_count := by
  have hadded : (((dkeys (buildDict C)).filter
      (fun k => !dmem (buildDict B) k)).filterMap
        (fun k => dlookup (buildDict C) k)).length
      = ((C.map mkKey).toFinset \ (B.map mkKey).toFinset).card := by
    rw [length_filterMap_isSome, length_filter_not_dmem]
    intro k hk
    have hk2 : k ∈ dkeys (buildDict C) := List.mem_of_mem_filter hk
    have := (dmem_iff_mem_dkeys (buildDict C) k).mpr hk2
    simpa [dmem] using this
  have hremoved : (((dkeys (buildDict B)).filter
      (fun k => !dmem (buildDict C) k)).filterMap
        (fun k => dlookup (buildDict B) k)).length
      = ((B.map mkKey).toFinset \ (C.map mkKey).toFinset).card := by
    rw [length_filterMap_isSome, length_filter_not_dmem]
    intro k hk
    have hk2 : k ∈ dkeys (buildDict B) := List.mem_of_mem_filter hk
    have := (dmem_iff_mem_dkeys (buildDict B) k).mpr hk2
    simpa [dmem] using this
  have hmodlen : (((dkeys (buildDict B)).filter (fun k => dmem (buildDict C) k)).filterMap
      (fun k =>
        match dlookup (buildDict B) k, dlookup (buildDict C) k with
        | some b, some c => if isModifiedPair b c then some (mkModified b c) else none
        | _, _ => none)).length
      = (((dkeys (buildDict B)).filter (fun k => dmem (buildDict C) k)).filter
          (fun k => modifiedAtKey B C k)).length := by
    apply length_filterMap_eq_length_filter
    intro k _
    rw [dlookup_buildDict, dlookup_buildDict, modifiedAtKey]
    cases lastWith B k <;> cases lastWith C k <;> simp
    split_ifs with hmod <;> simp [hmod]
  have hmodcard : (((dkeys (buildDict B)).filter (fun k => dmem (buildDict C) k)).filter
      (fun k => modifiedAtKey B C k)).length
      = (((B.map mkKey).toFinset ∩ (C.map mkKey).toFinset).filter
          (fun k => modifiedAtKey B C k = true)).card := by
    rw [← List.toFinset_card_of_nodup
      (List.Nodup.filter _ (List.Nodup.filter _ (dkeys_buildDict_nodup B)))]
    congr 1
    rw [List.toFinset_filter, toFinset_filter_dmem]
  have hcommon : ((dkeys (buildDict B)).filter (fun k => dmem (buildDict C) k)).length
      = ((B.map mkKey).toFinset ∩ (C.map mkKey).toFinset).card :=
    length_filter_dmem B C
  refine ⟨?_, ?_, ?_, ?_⟩
  · simpa only [comparePermissions] using hadded
  · simpa only [comparePermissions] using hremoved
  · simp only [comparePermissions]
    rw [hmodlen]
    exact hmodcard
  · simp only [comparePermissions]
    rw [hmodlen, hmodcard, hcommon]

/-! ## Change ledger lemmas and theorems (C3, C4) -/

theorem mem_modified_isModifiedPair (B C : List Perm) (mod : ModifiedPerm)
    (h : mod ∈ (comparePermissions B C).modified_permissions) :
    ∃ b c, mod = mkModified b c ∧ isModifiedPair b c = true := by
  simp only [comparePermissions] at h
  rw [List.mem_filterMap] at h
  obtain ⟨k, _, hf⟩ := h
  rcases hb : dlookup (buildDict B) k with _ | b
  · rw [hb] at hf
    simp at hf
  · rcases hc : dlookup (buildDict C) k with _ | c
    · rw [hb, hc] at hf
      simp at hf
    · rw [hb, hc] at hf
      by_cases hm : isModifiedPair b c = true
      · refine ⟨b, c, ?_, hm⟩
        simp [hm] at hf
        exact hf.symm
      · simp [hm] at hf

/-- C3 counterexample: with baseline `(R1,P1,"Read",false)` and current
`(R1,P1,"Edit",true)` the single modified entry differs in *both* the
permission level and the inheritance flag, yet `_record_changes` labels it
`inheritance_broken` — the claim says the refinement applies only when the
flag is the sole difference, i.e. this row should have been `modified`. -/
theorem record_changes_change_type_counterexample :
    (comparePermissions
        [Perm.mk "R1" "res" "P1" "pr" "Read" false]
        [Perm.mk "R1" "res" "P1" "pr" "Edit" true]).modified_permissions
      = [ModifiedPerm.mk "R1" "res" "P1" "pr" "Read" "Edit" false true] ∧
    (ModifiedPerm.mk "R1" "res" "P1" "pr" "Read" "Edit" false true).old_permission_level
      ≠ (ModifiedPerm.mk "R1" "res" "P1" "pr" "Read" "Edit" false true).new_permission_level ∧
    changeTypeForModified (ModifiedPerm.mk "R1" "res" "P1" "pr" "Read" "Edit" false true)
      = "inheritance_broken" := by
  decide

/-- C3 (amended): for every modified pair recorded by the change ledger,
the change type is `modified` when the inheritance flag is unchanged (in
which case the permission level necessarily differs), and whenever the
flag differs — even if the permission level also changed — the type is
`inheritance_broken` for `false → true` and `inheritance_restored` for
`true → false`. -/
theorem record_changes_change_type (B C : List Perm) (mod : ModifiedPerm)
    (h : mod ∈ (comparePermissions B C).modified_permissions) :
    (mod.old_inheritance = mod.new_inheritance →
      changeTypeForModified mod = "modified" ∧
      mod.old_permission_level ≠ mod.new_permission_level) ∧
    (mod.old_inheritance = false → mod.new_inheritance = true →
      changeTypeForModified mod = "inheritance_broken") ∧
    (mod.old_inheritance = true → mod.new_inheritance = false →
      changeTypeForModified mod = "inheritance_restored") := by
  obtain ⟨b, c, rfl, hm⟩ := mem_modified_isModifiedPair B C mod h
  refine ⟨?_, ?_, ?_⟩
  · intro heq
    simp only [mkModified] at heq ⊢
    constructor
    · simp [changeTypeForModified, heq]
    · simp only [isModifiedPair, heq, bne_self_eq_false, Bool.or_false] at hm
      intro hc
      rw [hc] at hm
      simp at hm
  · intro h1 h2
    simp only [mkModified] at h1 h2 ⊢
    simp [changeTypeForModified, h1, h2]
  · intro h1 h2
    simp only [mkModified] at h1 h2 ⊢
    simp [changeTypeForModified, h1, h2]

/-- C3 witness: a flag-only modification, fed through the diff engine,
classifies as `inheritance_broken`. -/
theorem record_changes_change_type_witness :
    changeTypeForModified (ModifiedPerm.mk "R1" "res" "P1" "pr" "Read" "Read" false true)
      = "inheritance_broken" :=
  (record_changes_change_type
      [Perm.mk "R1" "res" "P1" "pr" "Read" false]
      [Perm.mk "R1" "res" "P1" "pr" "Read" true]
      (ModifiedPerm.mk "R1" "res" "P1" "pr" "Read" "Read" false true)
      (by decide)).2.1 rfl rfl

/-- C4: `mark_changes_reviewed` evaluated at the failing input.  The SQL
filter `AND reviewed = false` leaves the already-reviewed row untouched
(first component), but the Python return value is `len(change_ids) = 1`
even though zero rows transitioned — the claim (and the docstring of the
function, "Number of changes marked as reviewed") says the count should
be the number of changes actually transitioned, here 0. -/
theorem mark_changes_reviewed_count_bug :
    markChangesReviewed [ChangeRow.mk 1 "added" true (some "bob") none] [1] "alice" none
      = ([ChangeRow.mk 1 "added" true (some "bob") none], 1) := by
  decide

/-! ## Notification dispatcher lemmas and theorems (C5) -/

theorem markNotificationFailed_max_retries (j : NotificationJob) (e : String) (now : Int) :
    (markNotificationFailed j e now).max_retries = j.max_retries := rfl

theorem markNotificationFailed_retry_count (j : NotificationJob) (e : String) (now : Int) :
    (markNotificationFailed j e now).retry_count = j.retry_count + 1 := rfl

theorem failSeq_max_retries (j : NotificationJob) (errs : List (String × Int)) :
    (failSeq j errs).max_retries = j.max_retries := by
  induction errs generalizing j with
  | nil => rfl
  | cons e t ih =>
    show (failSeq (markNotificationFailed j e.1 e.2) t).max_retries = _
    rw [ih, markNotificationFailed_max_retries]

theorem failSeq_retry_count (j : NotificationJob) (errs : List (String × Int)) :
    (failSeq j errs).retry_count = j.retry_count + errs.length := by
  induction errs generalizing j with
  | nil => rfl
  | cons e t ih =>
    show (failSeq (markNotificationFailed j e.1 e.2) t).retry_count = _
    rw [ih, markNotificationFailed_retry_count, List.length_cons]
    omega

theorem mem_insertByLe (le : NotificationJob → NotificationJob → Bool)
    (x q : NotificationJob) (l : List NotificationJob)
    (h : q ∈ insertByLe le x l) : q = x ∨ q ∈ l := by
  induction l with
  | nil =>
    simp [insertByLe] at h
    exact Or.inl h
  | cons y ys ih =>
    simp only [insertByLe] at h
    by_cases hle : le x y = true
    · rw [if_pos hle] at h
      rcases List.mem_cons.mp h with h2 | h2
      · exact Or.inl h2
      · exact Or.inr h2
    · rw [if_neg hle] at h
      rcases List.mem_cons.mp h with h2 | h2
      · exact Or.inr (by simp [h2])
      · rcases ih h2 with h3 | h3
        · exact Or.inl h3
        · exact Or.inr (List.mem_cons_of_mem _ h3)

theorem mem_sortByLe (le : NotificationJob → NotificationJob → Bool)
    (q : NotificationJob) (l : List NotificationJob)
    (h : q ∈ sortByLe le l) : q ∈ l := by
  induction l with
  | nil => simp [sortByLe] at h
  | cons x xs ih =>
    rcases mem_insertByLe le x q (sortByLe le xs) h with h2 | h2
    · simp [h2]
    · exact List.mem_cons_of_mem _ (ih h2)

/-- C5 counterexample: a job with `max_retries = 3` and `retry_count = 0`
that fails delivery three times is returned to `pending` each time
(the status CASE compares the *pre-increment* retry count against
`max_retries`), so it does not end in `failed` as the claim states. -/
theorem notification_retry_counterexample :
    (failSeq (NotificationJob.mk 1 "a@b" "pending" 0 3 0 5 0 none)
        [("err", 0), ("err", 0), ("err", 0)]).status = "pending" ∧
    (NotificationJob.mk 1 "a@b" "pending" 0 3 0 5 0 none).max_retries = 3 ∧
    ¬ (failSeq (NotificationJob.mk 1 "a@b" "pending" 0 3 0 5 0 none)
        [("err", 0), ("err", 0), ("err", 0)]).status = "failed" := by
  decide

/-- C5 (amended): starting from `retry_count = 0`, a job reaches status
`failed` after `max_retries + 1` delivery failures (one more than the
claim states): a failure while `retry_count < max_retries` returns it to
`pending` with `retry_count` incremented and `scheduled_for` pushed five
minutes out, a failure once `retry_count ≥ max_retries` makes it
`failed`; and the dispatch tick selects only jobs with
`status = "pending"` and `scheduled_for ≤ now` (ordered by priority then
creation time, up to the batch limit), so a `failed` job is never
selected again. -/
theorem notification_retry_bound :
    (∀ (j : NotificationJob) (errs : List (String × Int)),
        j.retry_count = 0 → errs.length = j.max_retries + 1 →
        (failSeq j errs).status = "failed") ∧
    (∀ (j : NotificationJob) (err : String) (now : Int),
        j.retry_count < j.max_retries →
        markNotificationFailed j err now =
          { j with
              status := "pending"
              retry_count := j.retry_count + 1
              error_message := some err
              scheduled_for := now + 5 * 60 }) ∧
    (∀ (j : NotificationJob) (err : String) (now : Int),
        j.max_retries ≤ j.retry_count →
        (markNotificationFailed j err now).status = "failed") ∧
    (∀ (queue : List NotificationJob) (now : Int) (mx : Nat)
        (q : NotificationJob), q ∈ selectPendingNotifications queue now mx →
        q.status = "pending" ∧ q.scheduled_for ≤ now) := by
  refine ⟨?_, ?_, ?_, ?_⟩
  · intro j errs h0 hlen
    rcases List.eq_nil_or_concat errs with rfl | ⟨L, e, rfl⟩
    · simp at hlen
    · rw [List.concat_eq_append] at hlen ⊢
      rw [failSeq, List.foldl_concat]
      have hrc : (failSeq j L).retry_count = j.max_retries := by
        rw [failSeq_retry_count, h0]
        simp at hlen
        omega
      have hmr : (failSeq j L).max_retries = j.max_retries := failSeq_max_retries j L
      show (markNotificationFailed (L.foldl (fun j e => markNotificationFailed j e.1 e.2) j) e.1 e.2).status = "failed"
      rw [markNotificationFailed]
      simp only []
      rw [if_pos]
      show (failSeq j L).max_retries ≤ (failSeq j L).retry_count
      rw [hrc, hmr]
  · intro j err now hlt
    rw [markNotificationFailed, if_neg (by omega), if_pos hlt]
  · intro j err now hge
    rw [markNotificationFailed]
    simp only []
    rw [if_pos hge]
  · intro queue now mx q hq
    have h1 : q ∈ sortByLe jobOrder
        (queue.filter fun j => decide (j.status = "pending" ∧ j.scheduled_for ≤ now)) :=
      List.take_subset _ _ hq
    have h2 := mem_sortByLe _ _ _ h1
    rw [List.mem_filter] at h2
    exact of_decide_eq_true h2.2

/-- C5 witness: a concrete job with `max_retries = 3` fails four times and
ends `failed`; a concrete pending job selected by the tick is indeed
pending and due. -/
theorem notification_retry_bound_witness :
    (failSeq (NotificationJob.mk 1 "a@b" "pending" 0 3 0 5 0 none)
        [("e", 0), ("e", 1), ("e", 2), ("e", 3)]).status = "failed" ∧
    ((NotificationJob.mk 2 "c@d" "pending" 1 3 0 5 0 none).status = "pending" ∧
      (NotificationJob.mk 2 "c@d" "pending" 1 3 0 5 0 none).scheduled_for ≤ 10) :=
  ⟨notification_retry_bound.1 _ _ rfl (by decide),
   notification_retry_bound.2.2.2
     [NotificationJob.mk 2 "c@d" "pending" 1 3 0 5 0 none] 10 10 _ (by decide)⟩

/-! ## Principal classifier theorems (C6) -/

/-- C6 counterexample: the source guards the base64 check with
`len(principal_id) > 10`, which the claim omits.  Principal id `"Qg=="`
base64-decodes exactly to its display name `"B"`, so by the claim it
should classify as a group, yet the classifier leaves it
`("user", is_human := true)`. -/
theorem classify_user_counterexample :
    b64DecodePadded "Qg==" = some (utf8Bytes "B") ∧
    utf8Bytes "B" ≠ [] ∧
    classifyUserGrantee "Qg==" "B" none = ("user", true) ∧
    classifyUserGrantee "Qg==" "B" none ≠ ("group", false) := by
  decide

/-- C6 (amended): a grantee nominally typed `user` is reclassified as
`principal_type = "group"` with `is_human = false` when either (a) its
principal id is longer than 10 characters and base64-decodes (with forced
padding) to a non-empty byte string equal to the UTF-8 encoding of its
display name, or (b) its display name contains one of the keywords
Members, Owners, Visitors, Contributors, Group and it lacks a usable
email address; in particular `"U2VuaW9yIE1lbWJlcnM="` with display name
`"Senior Members"` classifies as a group whatever its email value. -/
theorem classify_user_group_heuristic :
    (∀ (pid name : String) (email : Option String),
        (pid.length > 10 ∧ b64DecodePadded pid = some (utf8Bytes name) ∧
            utf8Bytes name ≠ []) ∨
          ((groupKeywords.any fun kw => strContainsSub name kw) = true ∧
            emailUnusable email = true) →
        classifyUserGrantee pid name email = ("group", false)) ∧
    (∀ email : Option String,
        classifyUserGrantee "U2VuaW9yIE1lbWJlcnM=" "Senior Members" email
          = ("group", false)) := by
  constructor
  · intro pid name email h
    simp only [classifyUserGrantee]
    rcases h with ⟨hlen, hdec, hne⟩ | ⟨hkw, hem⟩
    · by_cases hc : ((groupKeywords.any fun kw => strContainsSub name kw) &&
          emailUnusable email) = true
      · rw [if_pos hc]
      · rw [if_neg hc, if_pos hlen, hdec]
        exact if_pos ⟨hne, rfl⟩
    · rw [if_pos (by rw [hkw, hem]; rfl)]
  · intro email
    simp only [classifyUserGrantee]
    by_cases hc : ((groupKeywords.any fun kw =>
        strContainsSub "Senior Members" kw) && emailUnusable email) = true
    · rw [if_pos hc]
    · rw [if_neg hc]
      decide

/-- C6 witness: the scenario principal, with no email, classifies as a
group via the base64 branch of the amended heuristic. -/
theorem classify_user_group_heuristic_witness :
    classifyUserGrantee "U2VuaW9yIE1lbWJlcnM=" "Senior Members" none
      = ("group", false) :=
  classify_user_group_heuristic.1 "U2VuaW9yIE1lbWJlcnM=" "Senior Members" none
    (Or.inl (by decide))

/-! ## Baseline exclusivity theorems (C7) -/

/-- C7: activating a baseline (directly, or by creating one active) makes
it the sole active baseline of its site: the previously active baseline of
the same site is deactivated, and every baseline of any other site is left
untouched.  The trigger is modelled from the spec (its SQL migration is
not part of the source tree). -/
theorem baseline_activation_exclusivity :
    (∀ (tbl : List BaselineRow) (b1 b2 : BaselineRow),
        (tbl.map BaselineRow.id).Nodup → b1 ∈ tbl → b2 ∈ tbl →
        b1.site_id = b2.site_id → b1.id ≠ b2.id →
        (activateBaseline tbl b2.id).isSome = true ∧
        { b1 with is_active := false } ∈ (activateBaseline tbl b2.id).getD [] ∧
        { b2 with is_active := true } ∈ (activateBaseline tbl b2.id).getD [] ∧
        (∀ b ∈ tbl, b.site_id ≠ b2.site_id →
          b ∈ (activateBaseline tbl b2.id).getD []) ∧
        ((activateBaseline tbl b2.id).getD []).length = tbl.length) ∧
    (∀ (tbl : List BaselineRow) (b1 new : BaselineRow),
        b1 ∈ tbl → b1.site_id = new.site_id →
        new.id ∉ tbl.map BaselineRow.id →
        { b1 with is_active := false } ∈ createBaseline tbl new true ∧
        { new with is_active := true } ∈ createBaseline tbl new true ∧
        (∀ b ∈ tbl, b.site_id ≠ new.site_id → b ∈ createBaseline tbl new true)) := by
  constructor
  · intro tbl b1 b2 hnodup h1 h2 hsite hne
    obtain ⟨tg, hft⟩ : ∃ tg, tbl.find? (fun b => decide (b.id = b2.id)) = some tg := by
      rw [← Option.isSome_iff_exists, List.find?_isSome]
      exact ⟨b2, h2, by simp⟩
    have htg_mem : tg ∈ tbl := List.mem_of_find?_eq_some hft
    have htg_id : tg.id = b2.id := by
      have h3 := List.find?_some hft
      simpa using h3
    have htg : tg = b2 := List.inj_on_of_nodup_map hnodup htg_mem h2 htg_id
    subst htg
    have hval : activateBaseline tbl tg.id =
        some (applyExclusivityTrigger
          (tbl.map fun b => if b.id = tg.id then { b with is_active := true } else b)
          tg.id tg.site_id) := by
      rw [activateBaseline, hft]
    rw [hval]
    simp only [Option.isSome_some, Option.getD_some, true_and]
    simp only [applyExclusivityTrigger]
    refine ⟨?_, ?_, ?_, ?_⟩
    · refine List.mem_map.mpr ⟨b1, List.mem_map.mpr ⟨b1, h1, if_neg hne⟩, ?_⟩
      exact if_pos ⟨hsite, hne⟩
    · refine List.mem_map.mpr
        ⟨{ tg with is_active := true }, List.mem_map.mpr ⟨tg, h2, if_pos rfl⟩, ?_⟩
      exact if_neg (fun hcon => hcon.2 rfl)
    · intro b hb hbs
      have hbid : b.id ≠ tg.id := by
        intro hcon
        exact hbs (by rw [List.inj_on_of_nodup_map hnodup hb h2 hcon])
      refine List.mem_map.mpr ⟨b, List.mem_map.mpr ⟨b, hb, if_neg hbid⟩, ?_⟩
      exact if_neg (fun hcon => hbs hcon.1)
    · simp
  · intro tbl b1 new h1 hsite hfresh
    have hb1id : b1.id ≠ new.id := by
      intro hcon
      exact hfresh (hcon ▸ List.mem_map_of_mem BaselineRow.id h1)
    simp only [createBaseline, if_pos rfl, applyExclusivityTrigger]
    refine ⟨?_, ?_, ?_⟩
    · refine List.mem_map.mpr ⟨b1, List.mem_append_left _ h1, ?_⟩
      exact if_pos ⟨hsite, hb1id⟩
    · refine List.mem_map.mpr
        ⟨{ new with is_active := true },
         List.mem_append_right _ (List.mem_singleton_self _), ?_⟩
      exact if_neg (fun hcon => hcon.2 rfl)
    · intro b hb hbs
      refine List.mem_map.mpr ⟨b, List.mem_append_left _ hb, ?_⟩
      exact if_neg (fun hcon => hbs hcon.1)

/-- C7 witness: a concrete three-baseline table (two baselines of site A,
one of site B): activating baseline 2 deactivates baseline 1, activates
baseline 2, and leaves the baseline of site B unchanged in the result. -/
theorem baseline_activation_exclusivity_witness :
    (activateBaseline
        [BaselineRow.mk 1 "siteA" "u" "b1" true,
         BaselineRow.mk 2 "siteA" "u" "b2" false,
         BaselineRow.mk 3 "siteB" "u" "b3" true] 2).isSome = true ∧
    BaselineRow.mk 1 "siteA" "u" "b1" false ∈
      (activateBaseline
        [BaselineRow.mk 1 "siteA" "u" "b1" true,
         BaselineRow.mk 2 "siteA" "u" "b2" false,
         BaselineRow.mk 3 "siteB" "u" "b3" true] 2).getD [] ∧
    BaselineRow.mk 2 "siteA" "u" "b2" true ∈
      (activateBaseline
        [BaselineRow.mk 1 "siteA" "u" "b1" true,
         BaselineRow.mk 2 "siteA" "u" "b2" false,
         BaselineRow.mk 3 "siteB" "u" "b3" true] 2).getD [] ∧
    BaselineRow.mk 3 "siteB" "u" "b3" true ∈
      (activateBaseline
        [BaselineRow.mk 1 "siteA" "u" "b1" true,
         BaselineRow.mk 2 "siteA" "u" "b2" false,
         BaselineRow.mk 3 "siteB" "u" "b3" true] 2).getD [] := by
  have h := baseline_activation_exclusivity.1
    [BaselineRow.mk 1 "siteA" "u" "b1" true,
     BaselineRow.mk 2 "siteA" "u" "b2" false,
     BaselineRow.mk 3 "siteB" "u" "b3" true]
    (BaselineRow.mk 1 "siteA" "u" "b1" true)
    (BaselineRow.mk 2 "siteA" "u" "b2" false)
    (by decide) (by decide) (by decide) rfl (by decide)
  exact ⟨h.1, h.2.1, h.2.2.1,
    h.2.2.2.1 (BaselineRow.mk 3 "siteB" "u" "b3" true) (by decide) (by decide)⟩

/-! ## Permission-pass error-handling theorems (C8) -/

theorem foldl_addOutcome (rs : List (Except String ResourceOutcome))
    (acc : ResourceOutcome) :
    rs.foldl addOutcome acc =
      ⟨acc.processed + (collectStats rs).processed,
       acc.unique + (collectStats rs).unique,
       acc.error + (collectStats rs).error⟩ := by
  induction rs generalizing acc with
  | nil => simp [collectStats]
  | cons r t ih =>
    have hr : collectStats (r :: t) =
        ⟨(addOutcome ⟨0, 0, 0⟩ r).processed + (collectStats t).processed,
         (addOutcome ⟨0, 0, 0⟩ r).unique + (collectStats t).unique,
         (addOutcome ⟨0, 0, 0⟩ r).error + (collectStats t).error⟩ := by
      rw [collectStats, List.foldl_cons, ih]
    rw [List.foldl_cons, ih, hr]
    cases r <;> simp [addOutcome, ResourceOutcome.mk.injEq] <;> omega

/-- C8 counterexample: a 403 response on the permission endpoint (a 4xx
other than a rate limit) is counted as an error for that resource
(a one-error outcome record), not treated as "no data,
not an error" as the claim states — only a 404 gets that treatment. -/
theorem perm_pass_403_counterexample :
    processSingleResource 200 true 403 false = Except.ok ⟨0, 0, 1⟩ ∧
    processSingleResource 200 true 403 false ≠ Except.ok ⟨0, 0, 0⟩ := by
  refine ⟨rfl, fun hcon => ?_⟩
  rw [show processSingleResource 200 true 403 false = Except.ok ⟨0, 0, 1⟩ from rfl] at hcon
  simp [ResourceOutcome.mk.injEq] at hcon

/-- C8 (amended): a rate-limited fetch is retried with exponential
backoff `5s × 2^attempt`, for at most 3 attempts in total; a 404 on the
permission endpoint is no data and no error; any other non-200, non-429
response counts as a hard failure for that resource only; and the pass
statistics fold is additive, so one failing resource only adds to the
error count and processing continues over the remaining results. -/
theorem perm_pass_error_handling :
    (∀ (resp : Nat → Except String ResourceOutcome) (o : ResourceOutcome),
        resp 0 = Except.ok o →
        processResourceWithRetry resp = (Except.ok o, [])) ∧
    (∀ (resp : Nat → Except String ResourceOutcome) (e0 : String)
        (o : ResourceOutcome),
        resp 0 = Except.error e0 → containsSub429 e0 = true →
        resp 1 = Except.ok o →
        processResourceWithRetry resp = (Except.ok o, [5])) ∧
    (∀ (resp : Nat → Except String ResourceOutcome) (e0 e1 : String),
        resp 0 = Except.error e0 → containsSub429 e0 = true →
        resp 1 = Except.error e1 → containsSub429 e1 = true →
        processResourceWithRetry resp = (resp 2, [5, 10])) ∧
    (∀ (resp : Nat → Except String ResourceOutcome) (e0 : String),
        resp 0 = Except.error e0 → containsSub429 e0 = false →
        processResourceWithRetry resp = (Except.error e0, [])) ∧
    (∀ u : Bool, processSingleResource 200 true 404 u = Except.ok ⟨0, 0, 0⟩) ∧
    (∀ (s : Nat) (u : Bool), s ≠ 200 → s ≠ 429 → s ≠ 404 →
        processSingleResource 200 true s u = Except.ok ⟨0, 0, 1⟩) ∧
    (∀ rs1 rs2 : List (Except String ResourceOutcome),
        (collectStats (rs1 ++ rs2)).error
          = (collectStats rs1).error + (collectStats rs2).error ∧
        (collectStats (rs1 ++ rs2)).processed
          = (collectStats rs1).processed + (collectStats rs2).processed ∧
        (collectStats (rs1 ++ rs2)).unique
          = (collectStats rs1).unique + (collectStats rs2).unique) := by
  refine ⟨?_, ?_, ?_, ?_, ?_, ?_, ?_⟩
  · intro resp o h0
    simp [processResourceWithRetry, maxRetriesPermPass, processResourceWithRetryGo, h0]
  · intro resp e0 o h0 hc0 h1
    simp [processResourceWithRetry, maxRetriesPermPass, processResourceWithRetryGo,
      h0, hc0, h1]
  · intro resp e0 e1 h0 hc0 h1 hc1
    cases h2 : resp 2 <;>
      simp [processResourceWithRetry, maxRetriesPermPass, processResourceWithRetryGo,
        h0, hc0, h1, hc1, h2]
  · intro resp e0 h0 hc0
    simp [processResourceWithRetry, maxRetriesPermPass, processResourceWithRetryGo,
      h0, hc0]
  · intro u
    simp [processSingleResource]
  · intro s u hs200 hs429 hs404
    simp [processSingleResource, hs200, hs429, hs404]
  · intro rs1 rs2
    rw [collectStats, List.foldl_append, foldl_addOutcome]
    exact ⟨rfl, rfl, rfl⟩

/-- C8 witness: a fetch that is rate-limited once and then succeeds is
retried after a 5-second backoff; a 404 is no data; a 500 is one error. -/
theorem perm_pass_error_handling_witness :
    processResourceWithRetry
        (fun n => if n = 0 then Except.error "429 Rate Limited"
          else Except.ok ⟨1, 0, 0⟩)
      = (Except.ok ⟨1, 0, 0⟩, [5]) ∧
    processSingleResource 200 true 404 false = Except.ok ⟨0, 0, 0⟩ ∧
    processSingleResource 200 true 500 false = Except.ok ⟨0, 0, 1⟩ :=
  ⟨perm_pass_error_handling.2.1
      (fun n => if n = 0 then Except.error "429 Rate Limited"
        else Except.ok ⟨1, 0, 0⟩)
      "429 Rate Limited" ⟨1, 0, 0⟩ rfl (by decide) rfl,
   perm_pass_error_handling.2.2.2.2.1 false,
   perm_pass_error_handling.2.2.2.2.2.1 500 false
     (by decide) (by decide) (by decide)⟩

/-! ## Structure-discovery idempotence lemmas and theorem (C9) -/

theorem rowKey_structMerge (o n : SPRow) : rowKey (structMerge o n) = rowKey o := rfl

theorem rowKey_permMerge (o n : SPRow) : rowKey (permMerge o n) = rowKey o := rfl

theorem map_rowKey_upsertWith (merge : SPRow → SPRow → SPRow)
    (hm : ∀ o n, rowKey (merge o n) = rowKey o) (tbl : List SPRow) (r : SPRow) :
    (upsertWith merge tbl r).map rowKey =
      if rowKey r ∈ tbl.map rowKey then tbl.map rowKey
      else tbl.map rowKey ++ [rowKey r] := by
  rw [upsertWith]
  by_cases hmem : rowKey r ∈ tbl.map rowKey
  · have hany : tbl.any (fun x => decide (rowKey x = rowKey r)) = true := by
      rw [List.any_eq_true]
      obtain ⟨x, hx, hxk⟩ := List.mem_map.mp hmem
      exact ⟨x, hx, by simp [hxk]⟩
    rw [if_pos hany, if_pos hmem, List.map_map]
    apply List.map_congr_left
    intro x _
    by_cases hk : rowKey x = rowKey r
    · simp only [Function.comp_apply, if_pos hk, hm]
    · simp only [Function.comp_apply, if_neg hk]
  · have hany : tbl.any (fun x => decide (rowKey x = rowKey r)) = false := by
      rw [Bool.eq_false_iff]
      intro hcon
      rw [List.any_eq_true] at hcon
      obtain ⟨x, hx, hxk⟩ := hcon
      exact hmem (of_decide_eq_true hxk ▸ List.mem_map_of_mem rowKey hx)
    rw [hany]
    rw [if_neg Bool.false_ne_true, if_neg hmem, List.map_append]
    rfl

theorem map_rowKey_subset_upsertWith (merge : SPRow → SPRow → SPRow)
    (hm : ∀ o n, rowKey (merge o n) = rowKey o) (tbl : List SPRow) (r : SPRow) :
    tbl.map rowKey ⊆ (upsertWith merge tbl r).map rowKey := by
  rw [map_rowKey_upsertWith merge hm]
  split_ifs
  · exact fun k hk => hk
  · exact fun k hk => List.mem_append_left _ hk

theorem mem_map_rowKey_upsertWith (merge : SPRow → SPRow → SPRow)
    (hm : ∀ o n, rowKey (merge o n) = rowKey o) (tbl : List SPRow) (r : SPRow) :
    rowKey r ∈ (upsertWith merge tbl r).map rowKey := by
  rw [map_rowKey_upsertWith merge hm]
  split_ifs with h
  · exact h
  · exact List.mem_append_right _ (List.mem_singleton_self _)

theorem map_rowKey_subset_applyStructWrites (tbl : List SPRow) (ws : List SPRow) :
    tbl.map rowKey ⊆ (applyStructWrites tbl ws).map rowKey := by
  induction ws generalizing tbl with
  | nil => exact fun k hk => hk
  | cons w t ih =>
    intro k hk
    exact ih (upsertWith structMerge tbl w)
      (map_rowKey_subset_upsertWith structMerge rowKey_structMerge tbl w hk)

theorem writes_keys_mem_applyStructWrites (tbl : List SPRow) (ws : List SPRow) :
    ∀ w ∈ ws, rowKey w ∈ (applyStructWrites tbl ws).map rowKey := by
  induction ws generalizing tbl with
  | nil => intro w hw; simp at hw
  | cons w0 t ih =>
    intro w hw
    rcases List.mem_cons.mp hw with rfl | hw2
    · exact map_rowKey_subset_applyStructWrites (upsertWith structMerge tbl w) t
        (mem_map_rowKey_upsertWith structMerge rowKey_structMerge tbl w)
    · exact ih (upsertWith structMerge tbl w0) w hw2

theorem map_rowKey_applyStructWrites_of_mem (tbl : List SPRow) (ws : List SPRow)
    (h : ∀ w ∈ ws, rowKey w ∈ tbl.map rowKey) :
    (applyStructWrites tbl ws).map rowKey = tbl.map rowKey := by
  induction ws generalizing tbl with
  | nil => rfl
  | cons w t ih =>
    have hw : rowKey w ∈ tbl.map rowKey := h w (List.mem_cons_self w t)
    have hup : (upsertWith structMerge tbl w).map rowKey = tbl.map rowKey := by
      rw [map_rowKey_upsertWith structMerge rowKey_structMerge, if_pos hw]
    show (applyStructWrites (upsertWith structMerge tbl w) t).map rowKey = _
    rw [ih (upsertWith structMerge tbl w)
      (fun x hx => hup ▸ h x (List.mem_cons_of_mem _ hx)), hup]

theorem collectDriveWritesGo_keys_t (children : String → List DriveItem)
    (tid sid surl : String) (t1 t2 : Int) (fuel : Nat) :
    ∀ f : String,
      (collectDriveWritesGo children tid sid surl t1 fuel f).map rowKey =
      (collectDriveWritesGo children tid sid surl t2 fuel f).map rowKey := by
  induction fuel with
  | zero => intro f; rfl
  | succ fuel ih =>
    intro f
    simp only [collectDriveWritesGo, List.map_append]
    congr 1
    · rw [List.map_map, List.map_map]
      apply List.map_congr_left
      intro it _
      rfl
    · induction (children f).filter (fun it => it.isFolder) with
      | nil => rfl
      | cons x xs ihl =>
        simp only [List.flatMap_cons, List.map_append, ihl, ih x.id]

/-- C9: running the structure-discovery pass twice against an unchanged
upstream (the same `children` map, possibly at different collection times)
yields an identical row set: the same `(resource_id, principal_id)` key
list and the same row count, because every write is an upsert on that key
rather than an insert. -/
theorem structure_discovery_idempotent (children : String → List DriveItem)
    (tenant_id site_id site_url : String) (t1 t2 : Int) (tbl : List SPRow) :
    (runStructureDiscovery children tenant_id site_id site_url t2
        (runStructureDiscovery children tenant_id site_id site_url t1 tbl)).map rowKey
      = (runStructureDiscovery children tenant_id site_id site_url t1 tbl).map rowKey ∧
    (runStructureDiscovery children tenant_id site_id site_url t2
        (runStructureDiscovery children tenant_id site_id site_url t1 tbl)).length
      = (runStructureDiscovery children tenant_id site_id site_url t1 tbl).length := by
  have hkeys : (runStructureDiscovery children tenant_id site_id site_url t2
      (runStructureDiscovery children tenant_id site_id site_url t1 tbl)).map rowKey
      = (runStructureDiscovery children tenant_id site_id site_url t1 tbl).map rowKey := by
    rw [runStructureDiscovery]
    apply map_rowKey_applyStructWrites_of_mem
    intro w hw
    have hw1 : rowKey w ∈
        (collectDriveWrites children tenant_id site_id site_url t1).map rowKey := by
      rw [collectDriveWrites, ← collectDriveWritesGo_keys_t children
        tenant_id site_id site_url t2 t1 11 "root"]
      exact List.mem_map_of_mem rowKey hw
    obtain ⟨w1, hw1m, hw1k⟩ := List.mem_map.mp hw1
    rw [← hw1k, runStructureDiscovery]
    exact writes_keys_mem_applyStructWrites tbl _ w1 hw1m
  refine ⟨hkeys, ?_⟩
  have := congrArg List.length hkeys
  simpa using this

/-! ## Sentinel-row preservation lemmas and theorem (C10) -/

theorem mem_upsertWith_of_ne (merge : SPRow → SPRow → SPRow)
    (tbl : List SPRow) (w r : SPRow) (hr : r ∈ tbl)
    (hne : rowKey w ≠ rowKey r) : r ∈ upsertWith merge tbl w := by
  rw [upsertWith]
  split_ifs with h
  · exact List.mem_map.mpr ⟨r, hr, if_neg (fun hc => hne hc.symm)⟩
  · exact List.mem_append_left _ hr

theorem mem_foldl_upsertWith_of_ne (merge : SPRow → SPRow → SPRow)
    (ws : List SPRow) (tbl : List SPRow) (r : SPRow) (hr : r ∈ tbl)
    (hws : ∀ w ∈ ws, rowKey w ≠ rowKey r) :
    r ∈ ws.foldl (upsertWith merge) tbl := by
  induction ws generalizing tbl with
  | nil => exact hr
  | cons w t ih =>
    exact ih (upsertWith merge tbl w)
      (mem_upsertWith_of_ne merge tbl w r hr (hws w (List.mem_cons_self w t)))
      (fun x hx => hws x (List.mem_cons_of_mem _ hx))

/-- C10: when `process_single_resource` replaces the grant rows of a resource,
a sentinel structure row (`principal_id = "<resource_type>_<resource_id>"`)
survives: the delete removes only rows whose principal id differs from the
sentinel, the grant upserts never touch the sentinel key (no parsed grant
carries the sentinel principal id), and the final update changes only its
`has_broken_inheritance` field, leaving `resource_id`, `principal_id` and
`resource_type` unchanged. -/
theorem sentinel_row_preserved (tbl : List SPRow) (rid rtype : String)
    (ri : SPRow) (grants : List GrantInfo) (t : Int) (hup : Bool) (r : SPRow)
    (hr : r ∈ tbl) (hrid : r.resource_id = rid)
    (hpid : r.principal_id = sentinelId rtype rid)
    (hg : ∀ g ∈ grants, g.principal_id ≠ sentinelId rtype rid) :
    { r with has_broken_inheritance := hup } ∈
        processPermissionReplace tbl rid rtype ri grants t hup ∧
    ({ r with has_broken_inheritance := hup } : SPRow).resource_id = r.resource_id ∧
    ({ r with has_broken_inheritance := hup } : SPRow).principal_id = r.principal_id ∧
    ({ r with has_broken_inheritance := hup } : SPRow).resource_type = r.resource_type := by
  refine ⟨?_, rfl, rfl, rfl⟩
  simp only [processPermissionReplace]
  have h1 : r ∈ deleteNonSentinelRows tbl rid (sentinelId rtype rid) := by
    rw [deleteNonSentinelRows, List.mem_filter]
    refine ⟨hr, ?_⟩
    simp [hrid, hpid]
  have h2 : r ∈ (grants.map (grantRow ri rid t hup)).foldl (upsertWith permMerge)
      (deleteNonSentinelRows tbl rid (sentinelId rtype rid)) := by
    apply mem_foldl_upsertWith_of_ne permMerge _ _ r h1
    intro w hw
    obtain ⟨g, hgm, rfl⟩ := List.mem_map.mp hw
    intro hcon
    apply hg g hgm
    have : (grantRow ri rid t hup g).principal_id = r.principal_id :=
      congrArg Prod.snd hcon
    rw [hpid] at this
    exact this
  exact List.mem_map.mpr ⟨r, h2, if_pos ⟨hrid, hpid⟩⟩

/-- C10 witness: a concrete sentinel row survives a replacement that
deletes an old grant row and upserts a fresh one, with only its
inheritance flag updated. -/
theorem sentinel_row_preserved_witness :
    SPRow.mk "t" "folder" "R1" "res" "u" none 0 "S" "su" true "structure"
        "resource" "folder_R1" "res" none false "N/A" ∈
      processPermissionReplace
        [SPRow.mk "t" "folder" "R1" "res" "u" none 0 "S" "su" false "structure"
          "resource" "folder_R1" "res" none false "N/A",
         SPRow.mk "t" "folder" "R1" "res" "u" none 0 "S" "su" false "direct"
          "user" "alice" "Alice" (some "a@b") true "Read"]
        "R1" "folder"
        (SPRow.mk "t" "folder" "R1" "res" "u" none 0 "S" "su" false "structure"
          "resource" "folder_R1" "res" none false "N/A")
        [GrantInfo.mk "user" "bob" "Bob" (some "b@c") true "Edit" "direct"]
        1 true :=
  (sentinel_row_preserved
    [SPRow.mk "t" "folder" "R1" "res" "u" none 0 "S" "su" false "structure"
      "resource" "folder_R1" "res" none false "N/A",
     SPRow.mk "t" "folder" "R1" "res" "u" none 0 "S" "su" false "direct"
      "user" "alice" "Alice" (some "a@b") true "Read"]
    "R1" "folder"
    (SPRow.mk "t" "folder" "R1" "res" "u" none 0 "S" "su" false "structure"
      "resource" "folder_R1" "res" none false "N/A")
    [GrantInfo.mk "user" "bob" "Bob" (some "b@c") true "Edit" "direct"]
    1 true
    (SPRow.mk "t" "folder" "R1" "res" "u" none 0 "S" "su" false "structure"
      "resource" "folder_R1" "res" none false "N/A")
    (by decide) rfl (by decide) (by decide)).1

end SimplyInspect
